import Mathlib

/-
Verification of the thread-extraction engine of the slickdeals scraper
(`app.py`).  The definitions below are a shallow embedding of the Python
source: JSON values as produced by `json.loads`, the reference resolver
`resolve_ref`, the per-page comment extractor, the deal-metadata extractor,
the pagination loop of `scrape_comments`, the cache-depth policy and the
cache-filename derivation.  Machine-level details that cannot be mirrored
exactly are noted next to the definition they concern.
-/

namespace Slickdeals

/-- JSON values as produced by Python's `json.loads`: JSON `true`/`false`
become Python `bool`, integral numbers become `int`, other numbers become
`float` (modelled here as exact rationals; Python rounds to binary floating
point, a difference no claim depends on), strings, arrays and objects
(Python dicts, kept as ordered key/value lists; `json.loads` produces
unique keys). -/
inductive JSONValue where
  | null
  | bool (b : Bool)
  | int (n : Int)
  | float (q : Rat)
  | str (s : String)
  | arr (items : List JSONValue)
  | obj (fields : List (String × JSONValue))

/-- First-match lookup of a key in an object's field list (Python dicts have
unique keys, so first match is the only match). Models `d[k]` / `d.get(k)`. -/
def lookupField : List (String × JSONValue) → String → Option JSONValue
  | [], _ => none
  | (k, v) :: rest, key => if k = key then some v else lookupField rest key

/-- Models Python's `key in d` membership test on a dict. -/
def hasKey (fields : List (String × JSONValue)) (key : String) : Bool :=
  (lookupField fields key).isSome

/-- Lookup with a default, models `d.get(k, default)`; with default
`JSONValue.null` it models `d.get(k)` (Python `None` is JSON null here). -/
def getField (fields : List (String × JSONValue)) (key : String)
    (dflt : JSONValue) : JSONValue :=
  (lookupField fields key).getD dflt

/-- The Python `int` view of a JSON value: `isinstance(index, int)` is true
for Python `bool` as well (`True` counts as `1`, `False` as `0`), so the
resolver in `app.py` accepts booleans as indices. -/
def intIndexOf : JSONValue → Option Int
  | .int n => some n
  | .bool b => some (if b then 1 else 0)
  | _ => none

/-- `resolve_ref(data, index)` from `app.py` (lines 239-242): return
`data[index]` when `index` is a Python `int` (which includes `bool`) with
`0 <= index < len(data)`, else Python `None` (JSON null here). -/
def resolve_ref (data : List JSONValue) (index : JSONValue) : JSONValue :=
  match intIndexOf index with
  | some n =>
    if 0 ≤ n ∧ n < (data.length : Int) then data.getD n.toNat .null else .null
  | none => .null

/-- Python truthiness of a JSON value, as used by the `x or ""` idiom in the
extractor. -/
def pyTruthy : JSONValue → Bool
  | .null => false
  | .bool b => b
  | .int n => n != 0
  | .float q => q != 0
  | .str s => s != ""
  | .arr items => !items.isEmpty
  | .obj fields => !fields.isEmpty

/-- Models the Python expression `v or ""`: the value itself when truthy,
else the empty string. -/
def orEmptyStr (v : JSONValue) : JSONValue :=
  if pyTruthy v then v else .str ""

mutual

/-- Python `repr` of a JSON value.  String escaping and float formatting are
approximated; no claim depends on them. -/
def pyRepr : JSONValue → String
  | .null => "None"
  | .bool b => if b then "True" else "False"
  | .int n => toString n
  | .float q => toString q
  | .str s => "'" ++ s ++ "'"
  | .arr items => "[" ++ pyReprItems items ++ "]"
  | .obj fields => "\x7b" ++ pyReprFields fields ++ "\x7d"

/-- Comma-separated `repr`s of the elements of a JSON array. -/
def pyReprItems : List JSONValue → String
  | [] => ""
  | [v] => pyRepr v
  | v :: rest => pyRepr v ++ ", " ++ pyReprItems rest

/-- Comma-separated `'key': repr(value)` pairs of a JSON object. -/
def pyReprFields : List (String × JSONValue) → String
  | [] => ""
  | [kv] => "'" ++ kv.1 ++ "': " ++ pyRepr kv.2
  | kv :: rest => "'" ++ kv.1 ++ "': " ++ pyRepr kv.2 ++ ", " ++ pyReprFields rest

end

/-- Python `str` of a JSON value, as interpolated by an f-string: a string
stands for itself, every other value for its `repr` (for `None`, `bool`,
`int`, `float` this coincides with `str`). -/
def pyFormat : JSONValue → String
  | .str s => s
  | v => pyRepr v

/-- One normalized comment: the dict
`{"type": ..., "author": ..., "text": ..., "date": ...}` built by the
extractor.  `author`, `text` and `date` come out of `resolve_ref` guarded by
`or ""`, so they are arbitrary truthy JSON values or `""`. -/
structure Comment where
  ctype : String
  author : JSONValue
  text : JSONValue
  date : JSONValue

/-- The dedup identity of a comment: the code hashes
`f"{author}|{date}|{text}"`; Python's string `hash` is modelled as the
formatted string itself (an injective stand-in, since hash collisions are
not representable). -/
def commentKey (c : Comment) : String :=
  pyFormat c.author ++ "|" ++ pyFormat c.date ++ "|" ++ pyFormat c.text

/-- Shared two-level text resolution: resolve the text index; if the result
is a dict containing `htmlContent`, resolve that too; either way apply the
`or ""` guard. -/
def resolveCommentText (data : List JSONValue) (text_idx : JSONValue) :
    JSONValue :=
  match resolve_ref data text_idx with
  | .obj rf =>
    if hasKey rf "htmlContent" then
      orEmptyStr (resolve_ref data (getField rf "htmlContent" .null))
    else orEmptyStr (.obj rf)
  | raw => orEmptyStr raw

/-- Shape A ("Featured") extraction for one array element: matches dicts
having both `commentText` and `author` keys (lines 385-416 of `app.py`). -/
def featuredComment (data : List JSONValue) (item : JSONValue) :
    Option Comment :=
  match item with
  | .obj fields =>
    if hasKey fields "commentText" && hasKey fields "author" then
      let author := orEmptyStr (resolve_ref data (getField fields "author" .null))
      let text := resolveCommentText data (getField fields "commentText" .null)
      let date :=
        if hasKey fields "timestampFormatted" then
          orEmptyStr (resolve_ref data (getField fields "timestampFormatted" .null))
        else .str ""
      some ⟨"Featured", author, text, date⟩
    else none
  | _ => none

/-- Shape B ("Main") extraction for one array element: matches dicts having
both `commentContent` and `commentAuthor` keys (lines 420-462 of `app.py`);
checked on every element in addition to Shape A. -/
def mainComment (data : List JSONValue) (item : JSONValue) : Option Comment :=
  match item with
  | .obj fields =>
    if hasKey fields "commentContent" && hasKey fields "commentAuthor" then
      let author :=
        match resolve_ref data (getField fields "commentAuthor" .null) with
        | .obj af =>
          if hasKey af "username" then
            orEmptyStr (resolve_ref data (getField af "username" .null))
          else .str ""
        | _ => .str ""
      let text := resolveCommentText data (getField fields "commentContent" .null)
      let date :=
        if hasKey fields "commentSectionCommentFooter" then
          match resolve_ref data (getField fields "commentSectionCommentFooter" .null) with
          | .obj ff =>
            if hasKey ff "timestampFormatted" then
              orEmptyStr (resolve_ref data (getField ff "timestampFormatted" .null))
            else .str ""
          | _ => .str ""
        else .str ""
      some ⟨"Main", author, text, date⟩
    else none
  | _ => none

/-- Accumulator of the per-page extraction loop: the running dedup set
`seen_comments_hashes` (spanning all pages of the invocation), this page's
`page_comments`, and `new_comments_on_this_page`. -/
structure ExtractAcc where
  seen : List String
  pageComments : List Comment
  newCount : Nat

/-- Appending one candidate comment: discard it if its key is already in the
dedup set, otherwise add the key, append the comment and count it as new. -/
def addComment (acc : ExtractAcc) : Option Comment → ExtractAcc
  | none => acc
  | some c =>
    if commentKey c ∈ acc.seen then acc
    else
      { seen := commentKey c :: acc.seen,
        pageComments := acc.pageComments ++ [c],
        newCount := acc.newCount + 1 }

/-- Processing one array element: try Shape A first, then Shape B on the
same element (the code deliberately uses two independent `if`s). -/
def processItem (data : List JSONValue) (acc : ExtractAcc) (item : JSONValue) :
    ExtractAcc :=
  addComment (addComment acc (featuredComment data item)) (mainComment data item)

/-- The comment extractor for one page: iterate the resolved array in order,
starting from the dedup set accumulated on earlier pages, with an empty
`page_comments` list and a zero new-comment counter. -/
def extractComments (data : List JSONValue) (seen : List String) : ExtractAcc :=
  data.foldl (processItem data) { seen := seen, pageComments := [], newCount := 0 }

/-- Python `value == m` for an `int` literal `m`, as used by the
`main_block_idx != -1` sentinel test: numeric types compare by value,
non-numeric JSON values are never equal to an `int`. -/
def pyEqInt (v : JSONValue) (m : Int) : Bool :=
  match v with
  | .int n => n == m
  | .bool b => (if b then (1 : Int) else 0) == m
  | .float q => q == (m : Rat)
  | _ => false

/-- The `main_block_idx` scan of the metadata extractor: the value of the
`mainDesktopBlock` field of the first dict that has one, else the sentinel
`-1`. -/
def findMainBlockIdx : List JSONValue → JSONValue
  | [] => .int (-1)
  | .obj fields :: rest =>
    if hasKey fields "mainDesktopBlock" then getField fields "mainDesktopBlock" .null
    else findMainBlockIdx rest
  | _ :: rest => findMainBlockIdx rest

/-- Consume characters after a tag's first inner character up to and past the
closing angle bracket, returning the remaining suffix (no match when the
string ends first). -/
def consumeTag : List Char → Option (List Char)
  | [] => none
  | c :: rest => if c = '>' then some rest else consumeTag rest

/-- Attempt to match the regex tail of a tag (at least one non-closing
character, then the closing angle bracket) at the start of the list,
returning the suffix after the match. -/
def tagEnd : List Char → Option (List Char)
  | [] => none
  | c :: rest => if c = '>' then none else consumeTag rest

/-- One pass of the tag-stripping regex substitution, fuel-indexed so that it
is structurally recursive and evaluates by `rfl`; `stripTags` passes the
list length as fuel, which suffices because every step consumes at least one
character, so the fuel-exhausted branch is dead. -/
def stripTagsFuel : Nat → List Char → List Char
  | 0, l => l
  | _ + 1, [] => []
  | fuel + 1, c :: rest =>
    if c = '<' then
      match tagEnd rest with
      | some rest2 => ' ' :: stripTagsFuel fuel rest2
      | none => c :: stripTagsFuel fuel rest
    else c :: stripTagsFuel fuel rest

/-- Models `re.sub(r'<[^>]+>', ' ', s)`: each tag-delimited span becomes a
single space; an unclosed opening bracket stays literal. -/
def stripTags (l : List Char) : List Char := stripTagsFuel l.length l

/-- The whitespace class of the regex `\s` (and of `str.strip`), restricted
to ASCII. -/
def isPySpace (c : Char) : Bool :=
  c = ' ' || c = '\t' || c = '\n' || c = '\r' || c = '\x0b' || c = '\x0c'

/-- Models `re.sub(r'\s+', ' ', s)`: every maximal whitespace run becomes a
single space.  The boolean records whether the previous character was part
of a whitespace run. -/
def collapseWsAux : Bool → List Char → List Char
  | _, [] => []
  | prevSpace, c :: rest =>
    if isPySpace c then
      if prevSpace then collapseWsAux true rest
      else ' ' :: collapseWsAux true rest
    else c :: collapseWsAux false rest

/-- Models `str.strip()`: drop whitespace from both ends. -/
def pyStrip (l : List Char) : List Char :=
  (((l.dropWhile isPySpace).reverse).dropWhile isPySpace).reverse

/-- The body-HTML cleanup of the metadata extractor: strip tag markup to
spaces, collapse whitespace runs, trim the ends. -/
def stripHtml (s : String) : String :=
  String.mk (pyStrip (collapseWsAux false (stripTags s.toList)))

/-- The Deal Metadata Extractor (lines 347-377 of `app.py`), run on page 1's
resolved array only: locate the main content block, resolve `dealTitle` and
`bodyHtml` defensively, returning `(title, description)` with empty-string
fallbacks.  The surrounding Python `try`/`except` never fires on JSON
inputs, since every step here is defensive. -/
def extractMeta (data : List JSONValue) : String × String :=
  let idx := findMainBlockIdx data
  if pyEqInt idx (-1) then ("", "")
  else
    match resolve_ref data idx with
    | .obj mb =>
      let title :=
        if hasKey mb "dealTitle" then
          match resolve_ref data (getField mb "dealTitle" .null) with
          | .str s => s
          | _ => ""
        else ""
      let desc :=
        if hasKey mb "bodyHtml" then
          match resolve_ref data (getField mb "bodyHtml" .null) with
          | .str s => stripHtml s
          | _ => ""
        else ""
      (title, desc)
    | _ => ("", "")

/-- Models `base_url.split("?")[0]` (a no-op when there is no query
string): keep the characters before the first question mark. -/
def stripQuery (s : String) : String :=
  String.mk (s.toList.takeWhile (fun c => c ≠ '?'))

/-- Models `re.search(r'/f/(\d+)', base_url)`: the digits of the leftmost
occurrence of a slash-f-slash prefix followed by at least one digit,
fuel-indexed (fuel = remaining length) so that it is structurally recursive
and evaluates by `rfl`. -/
def findDealIdFuel : Nat → List Char → Option (List Char)
  | 0, _ => none
  | fuel + 1, l =>
    match l with
    | '/' :: 'f' :: '/' :: rest =>
      let ds := rest.takeWhile Char.isDigit
      if ds.isEmpty then findDealIdFuel fuel ('f' :: '/' :: rest) else some ds
    | _ :: rest => findDealIdFuel fuel rest
    | [] => none

/-- The deal-id search on a URL's characters; each step consumes one
character, so length fuel suffices. -/
def findDealId (l : List Char) : Option (List Char) := findDealIdFuel l.length l

/-- Models `re.sub(r'[^a-zA-Z0-9\-]', '', slug)`: keep only ASCII
alphanumerics and dashes. -/
def sanitizeSlug (s : String) : String :=
  String.mk (s.toList.filter (fun c => c.isAlphanum || c = '-'))

/-- Models Python's `s.split(sep)` for a one-character separator: split at
every occurrence, keeping empty parts (the result is never empty). -/
def splitOnChar (sep : Char) : List Char → List String
  | [] => [""]
  | c :: rest =>
    let r := splitOnChar sep rest
    if c = sep then "" :: r
    else
      match r with
      | [] => [String.mk [c]]
      | s :: tail => String.mk (c :: s.toList) :: tail

/-- Cache-filename derivation from the query-stripped URL (lines 261-269 of
`app.py`): `deal_<digits>.json` when the URL contains `/f/<digits>`,
otherwise `scrape_<slug>.json` where the slug is the last `/`-separated part
if non-empty, else the second-to-last part (code indexes `[-2]`
unconditionally; on the empty URL Python would raise instead). -/
def deriveFilename (base_url : String) : String :=
  match findDealId base_url.toList with
  | some ds => "deal_" ++ String.mk ds ++ ".json"
  | none =>
    let parts := splitOnChar '/' base_url.toList
    let lastPart := parts.getLastD ""
    let slug := if lastPart ≠ "" then lastPart else parts.getD (parts.length - 2) ""
    "scrape_" ++ String.mk ((sanitizeSlug slug).toList.take 50) ++ ".json"

/-- The last non-empty `/`-separated part of a URL, as the spec words the
slug fallback ("the last non-empty path segment"). -/
def lastNonEmptySeg (parts : List String) : String :=
  parts.foldl (fun acc p => if p = "" then acc else p) ""

/-- Modelled from the spec (section 6 filename derivation), for comparison
with the code's `deriveFilename`: `deal_<digits>.json` when the URL contains
`/f/<digits>`, otherwise `scrape_` plus the last non-empty path segment
sanitized and truncated to 50 characters. -/
def specFilename (base_url : String) : String :=
  match findDealId base_url.toList with
  | some ds => "deal_" ++ String.mk ds ++ ".json"
  | none =>
    let slug := lastNonEmptySeg (splitOnChar '/' base_url.toList)
    "scrape_" ++ String.mk ((sanitizeSlug slug).toList.take 50) ++ ".json"

/-- The payload situation of one fetched page: the state marker is absent,
its JSON fails to parse, or a parsed document (the reference-indexed array;
the observed payloads are top-level arrays). -/
inductive PageBody where
  | noMarker
  | badJson
  | doc (items : List JSONValue)

/-- The outcome of one page fetch: an exception anywhere inside the per-page
`try` block (network failure, bad HTTP status, or a non-integer `page`
query value failing `int()`), or success carrying the `page` query parameter
of the final redirected URL (absent when the parameter is missing or blank)
together with the payload situation. -/
inductive FetchOutcome where
  | error
  | ok (finalPageParam : Option Int) (body : PageBody)

/-- The redirect-overflow test on pages after the first: the final URL's
`page` parameter differs from the requested page, or is missing. -/
def pageMismatch : Option Int → Nat → Bool
  | some n, page => n != (page : Int)
  | none, _ => true

/-- The mutable state of the pagination loop: the cross-page dedup set, the
aggregate `all_comments`, and the page-1 deal metadata. -/
structure LoopState where
  seen : List String
  comments : List Comment
  title : String
  desc : String

/-- The initial loop state of one scrape invocation. -/
def initState : LoopState :=
  { seen := [], comments := [], title := "", desc := "" }

/-- The page-1-only metadata extraction step of the loop: on page 1 the deal
title and description are (re)computed from the page's document, later pages
leave them untouched. -/
def metaUpdate (page : Nat) (data : List JSONValue) (st : LoopState) :
    LoopState :=
  if page = 1 then
    { st with title := (extractMeta data).1, desc := (extractMeta data).2 }
  else st

/-- The pagination loop of `scrape_comments` (lines 298-468 of `app.py`):
`runPages fetch page rem st` processes pages `page, page+1, ...` while `rem`
pages remain, returning the final state together with the list of pages
actually fetched.  A fetch error, a redirect mismatch (pages after the
first), a missing marker, a parse failure, or a page with zero new comments
stops the loop; otherwise the page's new comments are appended to the
aggregate and the next page is processed. -/
def runPages (fetch : Nat → FetchOutcome) :
    Nat → Nat → LoopState → LoopState × List Nat
  | _, 0, st => (st, [])
  | page, rem + 1, st =>
    match fetch page with
    | .error => (st, [page])
    | .ok finalParam body =>
      if 1 < page ∧ pageMismatch finalParam page = true then (st, [page])
      else
        match body with
        | .noMarker => (st, [page])
        | .badJson => (st, [page])
        | .doc data =>
          let st1 := metaUpdate page data st
          let acc := extractComments data st1.seen
          if acc.newCount = 0 then ({ st1 with seen := acc.seen }, [page])
          else
            let next := runPages fetch (page + 1) rem
              { st1 with seen := acc.seen, comments := st1.comments ++ acc.pageComments }
            (next.1, page :: next.2)

/-- The state of the thread's cache file: missing, present but unreadable or
unparseable (read raises, treated as a miss), or present with parsed JSON
content. -/
inductive CacheState where
  | absent
  | corrupt
  | valid (content : JSONValue)

/-- The environment of one scrape request: the cache file's state and the
fetch behavior per page number. -/
structure Env where
  cache : CacheState
  fetch : Nat → FetchOutcome

/-- The scrape request body, with the source's defaults. -/
structure ScrapeRequest where
  url : String
  max_pages : Int := 10
  force_refresh : Bool := false

/-- Python `max_pages > cached_max`: defined for numeric right-hand sides
(`int`, `bool`, `float`), a `TypeError` otherwise (`none`, which the cache
reader catches and treats as a miss). -/
def pyGtInt (n : Int) : JSONValue → Option Bool
  | .int m => some (decide (m < n))
  | .bool b => some (decide ((if b then (1 : Int) else 0) < n))
  | .float q => some (decide (q < (n : Rat)))
  | _ => none

/-- Python dict assignment `d[key] = v` on a field list: replace the value
in place when the key exists (dicts have unique keys), else append. -/
def setFieldList (fields : List (String × JSONValue)) (key : String)
    (v : JSONValue) : List (String × JSONValue) :=
  if hasKey fields key then
    fields.map (fun kv => if kv.1 = key then (key, v) else kv)
  else fields ++ [(key, v)]

/-- Dict assignment lifted to JSON values (the scrape path only applies it
to objects). -/
def setField : JSONValue → String → JSONValue → JSONValue
  | .obj fields, key, v => .obj (setFieldList fields key v)
  | x, _, _ => x

/-- The JSON dict built for one extracted comment. -/
def commentToJson (c : Comment) : JSONValue :=
  .obj [("type", .str c.ctype), ("author", c.author), ("text", c.text),
        ("date", c.date)]

/-- The Deal record dict built at the end of a fresh scrape (lines 470-478
of `app.py`). -/
def mkResult (title desc : String) (comments : List Comment)
    (filename : String) (maxPages : Int) : JSONValue :=
  .obj [("deal_title", .str title),
        ("deal_description", .str desc),
        ("count", .int comments.length),
        ("comments", .arr (comments.map commentToJson)),
        ("saved_to", .str filename),
        ("source", .str "scrape"),
        ("max_pages_request", .int maxPages)]

/-- The cache fast path (lines 279-291 of `app.py`) on parsed cache content:
`some resp` returns `resp` from cache, `none` falls through to a fresh
scrape.  Non-dict content (`.get` raises) and non-numeric stored depths
(`>` raises) take the `except` branch, a fall-through. -/
def cacheDecision (content : JSONValue) (maxPages : Int) : Option JSONValue :=
  match content with
  | .obj fields =>
    match pyGtInt maxPages (getField fields "max_pages_request" (.int 0)) with
    | some true => none
    | some false => some (setField (.obj fields) "source" (.str "cache"))
    | none => none
  | _ => none

/-- The observable outcome of one scrape request: the response returned to
the caller, the cache file's state afterwards, the pages fetched in order,
and the aggregate comment list of the fresh scrape (empty on the cache fast
path, which extracts nothing). -/
structure ScrapeOutput where
  response : JSONValue
  cacheAfter : CacheState
  fetched : List Nat
  scrapedComments : List Comment

/-- The `/scrape` handler `scrape_comments` (lines 244-483 of `app.py`):
strip the query string, derive the cache filename, try the cache fast path
unless `force_refresh` is set (a missing or unreadable cache file is a
miss), otherwise run the pagination loop over pages `1..max_pages`, build
the Deal record with the requested depth, overwrite the cache file with it
and return it. -/
def scrape (env : Env) (req : ScrapeRequest) : ScrapeOutput :=
  let base_url := stripQuery req.url
  let filename := deriveFilename base_url
  let cachedResp : Option JSONValue :=
    if req.force_refresh then none
    else
      match env.cache with
      | .valid content => cacheDecision content req.max_pages
      | _ => none
  match cachedResp with
  | some resp =>
    { response := resp, cacheAfter := env.cache, fetched := [],
      scrapedComments := [] }
  | none =>
    let run := runPages env.fetch 1 req.max_pages.toNat initState
    let result := mkResult run.1.title run.1.desc run.1.comments filename
      req.max_pages
    { response := result, cacheAfter := .valid result, fetched := run.2,
      scrapedComments := run.1.comments }

/-- Whether a JSON value is an integer (in the JSON sense, excluding the
booleans that Python's `isinstance(-, int)` also accepts). -/
def isIntValue : JSONValue → Bool
  | .int _ => true
  | _ => false

/-- A field of the response object (the responses of both paths are
objects). -/
def respField (out : ScrapeOutput) (key : String) : JSONValue :=
  match out.response with
  | .obj fields => getField fields key .null
  | _ => .null

/-- The `max_pages_request` value stored in the cache file, when the file
holds a JSON object. -/
def storedMaxPages : CacheState → Option JSONValue
  | .valid (.obj fields) => lookupField fields "max_pages_request"
  | _ => none

/-- The situations in which the cache fast path falls through to a fresh
scrape: a forced refresh, a missing or unreadable cache file, or a readable
record whose stored depth is below the requested one. -/
def ScrapeBypassesCache (env : Env) (req : ScrapeRequest) : Prop :=
  req.force_refresh = true ∨ env.cache = .absent ∨ env.cache = .corrupt ∨
    (∃ fields m, env.cache = .valid (.obj fields) ∧
      lookupField fields "max_pages_request" = some (.int m) ∧
      m < req.max_pages)

/-- The page-1 situations that stop pagination before the payload is
parsed: the fetch raises, the payload marker is absent, or its JSON fails
to parse. -/
def page1Dead (fetch : Nat → FetchOutcome) : Prop :=
  fetch 1 = .error ∨ (∃ fp, fetch 1 = .ok fp .noMarker) ∨
    (∃ fp, fetch 1 = .ok fp .badJson)

/-- Invariant of the per-page extraction accumulator relative to the dedup
set `s0` it started from: the set only grows, every comment appended on
this page has its key in the set but not in `s0`, and the page's comments
have pairwise distinct keys. -/
def GoodAcc (s0 : List String) (acc : ExtractAcc) : Prop :=
  (∀ k ∈ s0, k ∈ acc.seen) ∧
  (∀ c ∈ acc.pageComments, commentKey c ∈ acc.seen ∧ commentKey c ∉ s0) ∧
  acc.pageComments.Pairwise (fun a b => commentKey a ≠ commentKey b)

/-- Invariant of the pagination-loop state: every aggregated comment's key
is in the dedup set, and the aggregate has pairwise distinct keys. -/
def GoodState (st : LoopState) : Prop :=
  (∀ c ∈ st.comments, commentKey c ∈ st.seen) ∧
  st.comments.Pairwise (fun a b => commentKey a ≠ commentKey b)

/-- Fixture: every fetch raises. -/
def fetchErr : Nat → FetchOutcome := fun _ => .error

/-- Fixture: every fetch succeeds without a payload marker. -/
def fetchNoMarker : Nat → FetchOutcome := fun _ => .ok none .noMarker

/-- Fixture: every fetch succeeds with an empty payload document. -/
def fetchEmptyDoc : Nat → FetchOutcome := fun _ => .ok none (.doc [])

/-- Fixture: every fetch lands on a final URL carrying page parameter 2. -/
def fetchRedirTwo : Nat → FetchOutcome := fun _ => .ok (some 2) .noMarker

/-- Fixture: a page-1 document with a deal title but no comment-shaped
objects. -/
def metaOnlyDoc : List JSONValue :=
  [.obj [("mainDesktopBlock", .int 1)], .obj [("dealTitle", .int 2)], .str "T"]

/-- Fixture: every fetch returns the title-only document. -/
def fetchMetaOnly : Nat → FetchOutcome := fun _ => .ok none (.doc metaOnlyDoc)

/-- Fixture: a cached record whose stored depth is 5. -/
def cachedFive : JSONValue := .obj [("max_pages_request", .int 5)]

/-- Fixture: cache holds the depth-5 record, fetches raise. -/
def envCacheFive : Env := { cache := .valid cachedFive, fetch := fetchErr }

/-- Fixture: no cache file, fetches raise. -/
def envAbsentErr : Env := { cache := .absent, fetch := fetchErr }

/-- Fixture: no cache file, fetches succeed without a marker. -/
def envAbsentNoMarker : Env := { cache := .absent, fetch := fetchNoMarker }

/-- Fixture: no cache file, fetches return the title-only document. -/
def envMetaOnly : Env := { cache := .absent, fetch := fetchMetaOnly }

/-- Fixture request: depth 3, no forced refresh. -/
def reqF99 : ScrapeRequest :=
  { url := "https://slickdeals.net/f/99-x", max_pages := 3, force_refresh := false }

/-- Fixture request: depth 3 with forced refresh. -/
def reqF99Force : ScrapeRequest :=
  { url := "https://slickdeals.net/f/99-x", max_pages := 3, force_refresh := true }

/-- Fixture request: depth 7, no forced refresh. -/
def reqF99High : ScrapeRequest :=
  { url := "https://slickdeals.net/f/99-x", max_pages := 7, force_refresh := false }

/-! ### Helper lemmas about the extraction loop -/

theorem addComment_seen_mem (acc : ExtractAcc) (copt : Option Comment)
    (k : String) (h : k ∈ acc.seen) : k ∈ (addComment acc copt).seen := by
  cases copt with
  | none => exact h
  | some c =>
    simp only [addComment]
    split
    · exact h
    · exact List.mem_cons_of_mem _ h

theorem processItem_seen_mem (data : List JSONValue) (acc : ExtractAcc)
    (item : JSONValue) (k : String) (h : k ∈ acc.seen) :
    k ∈ (processItem data acc item).seen :=
  addComment_seen_mem _ _ _ (addComment_seen_mem _ _ _ h)

theorem foldl_seen_mem (data : List JSONValue) (l : List JSONValue)
    (acc : ExtractAcc) (k : String) (h : k ∈ acc.seen) :
    k ∈ (l.foldl (processItem data) acc).seen := by
  induction l generalizing acc with
  | nil => exact h
  | cons x rest ih =>
    exact ih (processItem data acc x) (processItem_seen_mem data acc x k h)

theorem addComment_key_mem (acc : ExtractAcc) (c : Comment) :
    commentKey c ∈ (addComment acc (some c)).seen := by
  simp only [addComment]
  split
  · assumption
  · exact List.mem_cons_self _ _

theorem processItem_covers (data : List JSONValue) (acc : ExtractAcc)
    (item : JSONValue) (c : Comment)
    (h : featuredComment data item = some c ∨ mainComment data item = some c) :
    commentKey c ∈ (processItem data acc item).seen := by
  rcases h with h | h
  · unfold processItem
    rw [h]
    exact addComment_seen_mem _ _ _ (addComment_key_mem acc c)
  · unfold processItem
    rw [h]
    exact addComment_key_mem _ c

theorem foldl_covers (data : List JSONValue) (l : List JSONValue)
    (acc : ExtractAcc) (item : JSONValue) (hmem : item ∈ l) (c : Comment)
    (h : featuredComment data item = some c ∨ mainComment data item = some c) :
    commentKey c ∈ (l.foldl (processItem data) acc).seen := by
  induction l generalizing acc with
  | nil => cases hmem
  | cons x rest ih =>
    rcases List.mem_cons.mp hmem with rfl | hmem2
    · exact foldl_seen_mem data rest _ _ (processItem_covers data acc item c h)
    · exact ih _ hmem2

theorem extract_covers (data : List JSONValue) (s : List String)
    (item : JSONValue) (hmem : item ∈ data) (c : Comment)
    (h : featuredComment data item = some c ∨ mainComment data item = some c) :
    commentKey c ∈ (extractComments data s).seen :=
  foldl_covers data data _ item hmem c h

theorem addComment_stable (acc : ExtractAcc) (copt : Option Comment)
    (h : ∀ c, copt = some c → commentKey c ∈ acc.seen) :
    addComment acc copt = acc := by
  cases copt with
  | none => rfl
  | some c =>
    simp only [addComment]
    rw [if_pos (h c rfl)]

theorem foldl_stable (data : List JSONValue) (l : List JSONValue)
    (acc : ExtractAcc)
    (h : ∀ item ∈ l, ∀ c,
      (featuredComment data item = some c ∨ mainComment data item = some c) →
      commentKey c ∈ acc.seen) :
    l.foldl (processItem data) acc = acc := by
  induction l with
  | nil => rfl
  | cons x rest ih =>
    have hx : processItem data acc x = acc := by
      unfold processItem
      rw [addComment_stable acc (featuredComment data x)
        (fun c hc => h x (List.mem_cons_self _ _) c (Or.inl hc))]
      exact addComment_stable acc (mainComment data x)
        (fun c hc => h x (List.mem_cons_self _ _) c (Or.inr hc))
    simp only [List.foldl_cons, hx]
    exact ih (fun item hi c hc => h item (List.mem_cons_of_mem _ hi) c hc)

theorem extract_no_new (data : List JSONValue) (s : List String)
    (h : ∀ item ∈ data, ∀ c,
      (featuredComment data item = some c ∨ mainComment data item = some c) →
      commentKey c ∈ s) :
    extractComments data s = { seen := s, pageComments := [], newCount := 0 } :=
  foldl_stable data data _ h

theorem extract_idempotent (data : List JSONValue) (s : List String) :
    (extractComments data (extractComments data s).seen).newCount = 0 := by
  rw [extract_no_new data (extractComments data s).seen
    (fun item hi c hc => extract_covers data s item hi c hc)]

theorem addComment_good (s0 : List String) (acc : ExtractAcc)
    (copt : Option Comment) (h : GoodAcc s0 acc) :
    GoodAcc s0 (addComment acc copt) := by
  obtain ⟨h1, h2, h3⟩ := h
  cases copt with
  | none => exact ⟨h1, h2, h3⟩
  | some c =>
    simp only [addComment]
    split
    · exact ⟨h1, h2, h3⟩
    · rename_i hnot
      refine ⟨fun k hk => List.mem_cons_of_mem _ (h1 k hk), ?_, ?_⟩
      · intro c2 hc2
        rcases List.mem_append.mp hc2 with hc2 | hc2
        · exact ⟨List.mem_cons_of_mem _ (h2 c2 hc2).1, (h2 c2 hc2).2⟩
        · rcases List.mem_singleton.mp hc2 with rfl
          exact ⟨List.mem_cons_self _ _, fun hk => hnot (h1 _ hk)⟩
      · rw [List.pairwise_append]
        refine ⟨h3, List.pairwise_singleton _ _, ?_⟩
        intro a ha b hb
        rcases List.mem_singleton.mp hb with rfl
        intro heq
        exact hnot (heq ▸ (h2 a ha).1)

theorem processItem_good (data : List JSONValue) (s0 : List String)
    (acc : ExtractAcc) (item : JSONValue) (h : GoodAcc s0 acc) :
    GoodAcc s0 (processItem data acc item) :=
  addComment_good s0 _ _ (addComment_good s0 _ _ h)

theorem foldl_good (data : List JSONValue) (l : List JSONValue)
    (s0 : List String) (acc : ExtractAcc) (h : GoodAcc s0 acc) :
    GoodAcc s0 (l.foldl (processItem data) acc) := by
  induction l generalizing acc with
  | nil => exact h
  | cons x rest ih => exact ih _ (processItem_good data s0 acc x h)

theorem extract_good (data : List JSONValue) (s : List String) :
    GoodAcc s (extractComments data s) := by
  refine foldl_good data data s _ ?_
  exact ⟨fun k hk => hk, fun c hc => absurd hc (List.not_mem_nil c), List.Pairwise.nil⟩

/-! ### Helper lemmas about the pagination loop and the scrape wrapper -/

theorem runPages_error_stop (fetch : Nat → FetchOutcome) (page rem : Nat)
    (st : LoopState) (h : fetch page = .error) :
    runPages fetch page (rem + 1) st = (st, [page]) := by
  simp only [runPages, h]

theorem runPages_page1_dead (fetch : Nat → FetchOutcome) (rem : Nat)
    (st : LoopState) (h : page1Dead fetch) :
    runPages fetch 1 (rem + 1) st = (st, [1]) := by
  rcases h with h | ⟨fp, h⟩ | ⟨fp, h⟩ <;> simp [runPages, h]

theorem metaUpdate_seen (page : Nat) (data : List JSONValue) (st : LoopState) :
    (metaUpdate page data st).seen = st.seen := by
  unfold metaUpdate; split <;> rfl

theorem metaUpdate_comments (page : Nat) (data : List JSONValue)
    (st : LoopState) : (metaUpdate page data st).comments = st.comments := by
  unfold metaUpdate; split <;> rfl

theorem runPages_ok_mismatch (fetch : Nat → FetchOutcome) (page rem : Nat)
    (st : LoopState) (fp : Option Int) (body : PageBody)
    (h1 : fetch page = .ok fp body)
    (h2 : 1 < page ∧ pageMismatch fp page = true) :
    runPages fetch page (rem + 1) st = (st, [page]) := by
  simp only [runPages, h1, if_pos h2]

theorem runPages_ok_noBody (fetch : Nat → FetchOutcome) (page rem : Nat)
    (st : LoopState) (fp : Option Int) (body : PageBody)
    (h1 : fetch page = .ok fp body)
    (hb : body = .noMarker ∨ body = .badJson)
    (h2 : ¬(1 < page ∧ pageMismatch fp page = true)) :
    runPages fetch page (rem + 1) st = (st, [page]) := by
  rcases hb with rfl | rfl <;> simp only [runPages, h1, if_neg h2]

theorem runPages_doc_stop (fetch : Nat → FetchOutcome) (page rem : Nat)
    (st : LoopState) (fp : Option Int) (data : List JSONValue)
    (h1 : fetch page = .ok fp (.doc data))
    (h2 : ¬(1 < page ∧ pageMismatch fp page = true))
    (h3 : (extractComments data st.seen).newCount = 0) :
    runPages fetch page (rem + 1) st =
      ({ metaUpdate page data st with
          seen := (extractComments data st.seen).seen }, [page]) := by
  have hseen := metaUpdate_seen page data st
  simp only [runPages, h1, if_neg h2, hseen, if_pos h3]

theorem runPages_doc_continue (fetch : Nat → FetchOutcome) (page rem : Nat)
    (st : LoopState) (fp : Option Int) (data : List JSONValue)
    (h1 : fetch page = .ok fp (.doc data))
    (h2 : ¬(1 < page ∧ pageMismatch fp page = true))
    (h3 : (extractComments data st.seen).newCount ≠ 0) :
    runPages fetch page (rem + 1) st =
      ((runPages fetch (page + 1) rem
          { metaUpdate page data st with
            seen := (extractComments data st.seen).seen,
            comments := (metaUpdate page data st).comments ++
              (extractComments data st.seen).pageComments }).1,
       page :: (runPages fetch (page + 1) rem
          { metaUpdate page data st with
            seen := (extractComments data st.seen).seen,
            comments := (metaUpdate page data st).comments ++
              (extractComments data st.seen).pageComments }).2) := by
  have hseen := metaUpdate_seen page data st
  simp only [runPages, h1, if_neg h2, hseen, if_neg h3]

theorem runPages_good (fetch : Nat → FetchOutcome) (rem : Nat) :
    ∀ (page : Nat) (st : LoopState), GoodState st →
      GoodState (runPages fetch page rem st).1 := by
  induction rem with
  | zero => intro page st h; exact h
  | succ rem ih =>
    intro page st h
    cases hf : fetch page with
    | error => rw [runPages_error_stop fetch page rem st hf]; exact h
    | ok fp body =>
      by_cases hc : 1 < page ∧ pageMismatch fp page = true
      · rw [runPages_ok_mismatch fetch page rem st fp body hf hc]; exact h
      · cases body with
        | noMarker =>
          rw [runPages_ok_noBody fetch page rem st fp _ hf (Or.inl rfl) hc]
          exact h
        | badJson =>
          rw [runPages_ok_noBody fetch page rem st fp _ hf (Or.inr rfl) hc]
          exact h
        | doc data =>
          have hga := extract_good data st.seen
          have hmseen := metaUpdate_seen page data st
          have hmcom := metaUpdate_comments page data st
          by_cases hz : (extractComments data st.seen).newCount = 0
          · rw [runPages_doc_stop fetch page rem st fp data hf hc hz]
            refine ⟨?_, ?_⟩
            · intro c hcmem
              simp only [hmcom] at hcmem
              exact hga.1 _ (h.1 c hcmem)
            · simpa only [hmcom] using h.2
          · rw [runPages_doc_continue fetch page rem st fp data hf hc hz]
            refine ih (page + 1) _ ⟨?_, ?_⟩
            · intro c hcmem
              simp only [hmcom] at hcmem
              rcases List.mem_append.mp hcmem with hcm | hcm
              · exact hga.1 _ (h.1 c hcm)
              · exact (hga.2.1 c hcm).1
            · simp only [hmcom]
              rw [List.pairwise_append]
              refine ⟨h.2, hga.2.2, ?_⟩
              intro a ha b hb heq
              exact (hga.2.1 b hb).2 (heq ▸ h.1 a ha)

theorem runPages_fetched_cons (fetch : Nat → FetchOutcome) (page rem : Nat)
    (st : LoopState) :
    ∃ t, (runPages fetch page (rem + 1) st).2 = page :: t := by
  cases hf : fetch page with
  | error => exact ⟨[], by rw [runPages_error_stop fetch page rem st hf]⟩
  | ok fp body =>
    by_cases hc : 1 < page ∧ pageMismatch fp page = true
    · exact ⟨[], by rw [runPages_ok_mismatch fetch page rem st fp body hf hc]⟩
    · cases body with
      | noMarker =>
        exact ⟨[], by rw [runPages_ok_noBody fetch page rem st fp _ hf (Or.inl rfl) hc]⟩
      | badJson =>
        exact ⟨[], by rw [runPages_ok_noBody fetch page rem st fp _ hf (Or.inr rfl) hc]⟩
      | doc data =>
        by_cases hz : (extractComments data st.seen).newCount = 0
        · exact ⟨[], by rw [runPages_doc_stop fetch page rem st fp data hf hc hz]⟩
        · exact ⟨_, by rw [runPages_doc_continue fetch page rem st fp data hf hc hz]⟩

theorem cacheDecision_stale (fields : List (String × JSONValue)) (m maxp : Int)
    (hm : lookupField fields "max_pages_request" = some (.int m))
    (hlt : m < maxp) : cacheDecision (.obj fields) maxp = none := by
  simp [cacheDecision, getField, hm, pyGtInt, hlt]

theorem cacheDecision_hit (fields : List (String × JSONValue)) (m maxp : Int)
    (hm : lookupField fields "max_pages_request" = some (.int m))
    (hle : maxp ≤ m) :
    cacheDecision (.obj fields) maxp =
      some (setField (.obj fields) "source" (.str "cache")) := by
  simp [cacheDecision, getField, hm, pyGtInt, not_lt.mpr hle]

theorem scrape_bypass (env : Env) (req : ScrapeRequest)
    (h : ScrapeBypassesCache env req) :
    scrape env req =
      { response := mkResult
          (runPages env.fetch 1 req.max_pages.toNat initState).1.title
          (runPages env.fetch 1 req.max_pages.toNat initState).1.desc
          (runPages env.fetch 1 req.max_pages.toNat initState).1.comments
          (deriveFilename (stripQuery req.url)) req.max_pages,
        cacheAfter := .valid (mkResult
          (runPages env.fetch 1 req.max_pages.toNat initState).1.title
          (runPages env.fetch 1 req.max_pages.toNat initState).1.desc
          (runPages env.fetch 1 req.max_pages.toNat initState).1.comments
          (deriveFilename (stripQuery req.url)) req.max_pages),
        fetched := (runPages env.fetch 1 req.max_pages.toNat initState).2,
        scrapedComments :=
          (runPages env.fetch 1 req.max_pages.toNat initState).1.comments } := by
  rcases h with hf | hc | hc | ⟨fields, m, hc, hm, hlt⟩
  · simp [scrape, hf]
  · by_cases hfr : req.force_refresh <;> simp [scrape, hc, hfr]
  · by_cases hfr : req.force_refresh <;> simp [scrape, hc, hfr]
  · by_cases hfr : req.force_refresh <;>
      simp [scrape, hc, hfr, cacheDecision_stale fields m req.max_pages hm hlt]

theorem scrape_cached (env : Env) (req : ScrapeRequest)
    (fields : List (String × JSONValue)) (m : Int)
    (hf : req.force_refresh = false)
    (hc : env.cache = .valid (.obj fields))
    (hm : lookupField fields "max_pages_request" = some (.int m))
    (hle : req.max_pages ≤ m) :
    scrape env req =
      { response := setField (.obj fields) "source" (.str "cache"),
        cacheAfter := env.cache, fetched := [], scrapedComments := [] } := by
  simp [scrape, hf, hc, cacheDecision_hit fields m req.max_pages hm hle]

theorem storedMaxPages_mkResult (t d : String) (cs : List Comment)
    (fn : String) (mp : Int) :
    storedMaxPages (.valid (mkResult t d cs fn mp)) = some (.int mp) := by
  simp [storedMaxPages, mkResult, lookupField]

theorem scrape_scrapedComments_cases (env : Env) (req : ScrapeRequest) :
    (scrape env req).scrapedComments = [] ∨
    (scrape env req).scrapedComments =
      (runPages env.fetch 1 req.max_pages.toNat initState).1.comments := by
  by_cases hfr : req.force_refresh
  · right; simp [scrape, hfr]
  · cases hc : env.cache with
    | absent => right; simp [scrape, hfr, hc]
    | corrupt => right; simp [scrape, hfr, hc]
    | valid content =>
      cases hd : cacheDecision content req.max_pages with
      | none => right; simp [scrape, hfr, hc, hd]
      | some v => left; simp [scrape, hfr, hc, hd]

/-! ### Claim theorems -/

/-- C1, counterexample to the claim as stated: the boolean index `true` is
not an integer, yet `resolve_ref` returns `data[1]` for it rather than
absent, because Python's `isinstance(index, int)` accepts booleans. -/
theorem c1_bool_index_counterexample :
    isIntValue (JSONValue.bool true) = false ∧
    resolve_ref [JSONValue.str "a", JSONValue.str "b"] (JSONValue.bool true) =
      JSONValue.str "b" ∧
    JSONValue.str "b" ≠ JSONValue.null :=
  ⟨rfl, rfl, fun h => JSONValue.noConfusion h⟩

/-- C1 (amended): `resolve_ref data index` returns `data[index]` exactly
when `index` is an integer with `0 <= index < len(data)` or a boolean
(treated as the integer 1 or 0); for every other index value — negative or
out-of-range integer, float, string, array, object, null — it returns
absent (None), and it never raises. -/
theorem c1_resolve_ref_spec (data : List JSONValue) (index : JSONValue) :
    (∀ n : Int, index = .int n →
      ((0 ≤ n ∧ n < (data.length : Int)) →
        resolve_ref data index = data.getD n.toNat .null) ∧
      (¬(0 ≤ n ∧ n < (data.length : Int)) →
        resolve_ref data index = .null)) ∧
    (∀ b : Bool, index = .bool b →
      resolve_ref data index = resolve_ref data (.int (if b then 1 else 0))) ∧
    ((∀ n : Int, index ≠ .int n) → (∀ b : Bool, index ≠ .bool b) →
      resolve_ref data index = .null) := by
  refine ⟨?_, ?_, ?_⟩
  · rintro n rfl
    constructor
    · intro hb; simp [resolve_ref, intIndexOf, hb]
    · intro hb; simp [resolve_ref, intIndexOf, hb]
  · rintro b rfl
    cases b <;> rfl
  · intro hn hb
    cases index with
    | int n => exact absurd rfl (hn n)
    | bool b => exact absurd rfl (hb b)
    | null => rfl
    | float q => rfl
    | str s => rfl
    | arr items => rfl
    | obj fields => rfl

/-- C1, witness: the amended theorem evaluated at concrete inputs. -/
theorem c1_resolve_ref_spec_witness :
    resolve_ref [JSONValue.int 7] (JSONValue.int 0) = JSONValue.int 7 ∧
    resolve_ref [JSONValue.int 7] (JSONValue.str "x") = JSONValue.null :=
  ⟨((c1_resolve_ref_spec [JSONValue.int 7] (JSONValue.int 0)).1 0 rfl).1
      (by decide),
   (c1_resolve_ref_spec [JSONValue.int 7] (JSONValue.str "x")).2.2
      (fun n h => JSONValue.noConfusion h) (fun b h => JSONValue.noConfusion h)⟩

/-- C10: the resolver treats boolean indices as integers: for any `data`
with at least two elements, `true` resolves to `data[1]` and `false` to
`data[0]`. -/
theorem c10_bool_index (data : List JSONValue) (h : 2 ≤ data.length) :
    resolve_ref data (JSONValue.bool true) = data.getD 1 .null ∧
    resolve_ref data (JSONValue.bool false) = data.getD 0 .null := by
  have h1 : (1 : Int) < (data.length : Int) := by exact_mod_cast h
  have h0 : (0 : Int) < (data.length : Int) := by omega
  constructor
  · simp only [resolve_ref, intIndexOf]
    rw [if_pos ⟨by norm_num, by simpa using h1⟩]
    norm_num
  · simp only [resolve_ref, intIndexOf]
    rw [if_pos ⟨le_refl 0, by simpa using h0⟩]
    norm_num

/-- C10, witness: boolean indices on a concrete two-element list. -/
theorem c10_bool_index_witness :
    2 ≤ ([JSONValue.int 4, JSONValue.int 9] : List JSONValue).length ∧
    resolve_ref [JSONValue.int 4, JSONValue.int 9] (JSONValue.bool true) =
      JSONValue.int 9 ∧
    resolve_ref [JSONValue.int 4, JSONValue.int 9] (JSONValue.bool false) =
      JSONValue.int 4 :=
  ⟨by decide,
   (c10_bool_index [JSONValue.int 4, JSONValue.int 9] (by decide)).1,
   (c10_bool_index [JSONValue.int 4, JSONValue.int 9] (by decide)).2⟩

/-- C2: the cache-depth policy: with a readable cached record and no forced
refresh, a stored depth at least the requested one returns the cached record
with only its `source` field set to `"cache"`, fetching no pages and leaving
the cache file untouched; a requested depth exceeding the stored one
performs a fresh scrape (at least one page is fetched and the response is a
freshly scraped record). -/
theorem c2_cache_depth_policy :
    (∀ (env : Env) (req : ScrapeRequest) (fields : List (String × JSONValue))
      (m : Int),
      req.force_refresh = false →
      env.cache = .valid (.obj fields) →
      lookupField fields "max_pages_request" = some (.int m) →
      req.max_pages ≤ m →
      (scrape env req).fetched = [] ∧
      (scrape env req).response = setField (.obj fields) "source" (.str "cache") ∧
      (scrape env req).cacheAfter = env.cache) ∧
    (∀ (env : Env) (req : ScrapeRequest) (fields : List (String × JSONValue))
      (m : Int),
      req.force_refresh = false →
      env.cache = .valid (.obj fields) →
      lookupField fields "max_pages_request" = some (.int m) →
      m < req.max_pages → 1 ≤ req.max_pages →
      (scrape env req).fetched ≠ [] ∧
      respField (scrape env req) "source" = JSONValue.str "scrape") := by
  constructor
  · intro env req fields m hf hc hm hle
    rw [scrape_cached env req fields m hf hc hm hle]
    exact ⟨rfl, rfl, hc.symm ▸ rfl⟩
  · intro env req fields m hf hc hm hlt hmax
    have hb : ScrapeBypassesCache env req :=
      Or.inr (Or.inr (Or.inr ⟨fields, m, hc, hm, hlt⟩))
    rw [scrape_bypass env req hb]
    obtain ⟨k, hk⟩ : ∃ k, req.max_pages.toNat = k + 1 :=
      ⟨req.max_pages.toNat - 1, by omega⟩
    constructor
    · rw [hk]
      obtain ⟨t, ht⟩ := runPages_fetched_cons env.fetch 1 k initState
      simp [ht]
    · simp [respField, mkResult, getField, lookupField]

/-- C2, witness: the policy evaluated on a cached depth of 5 against
requested depths 3 (cache hit) and 7 (fresh scrape). -/
theorem c2_cache_depth_policy_witness :
    ((scrape envCacheFive reqF99).fetched = [] ∧
     (scrape envCacheFive reqF99).response =
       setField (.obj [("max_pages_request", .int 5)]) "source" (.str "cache") ∧
     (scrape envCacheFive reqF99).cacheAfter = envCacheFive.cache) ∧
    ((scrape envCacheFive reqF99High).fetched ≠ [] ∧
     respField (scrape envCacheFive reqF99High) "source" =
       JSONValue.str "scrape") :=
  ⟨c2_cache_depth_policy.1 envCacheFive reqF99
      [("max_pages_request", .int 5)] 5 rfl rfl rfl (by decide),
   c2_cache_depth_policy.2 envCacheFive reqF99High
      [("max_pages_request", .int 5)] 5 rfl rfl rfl (by decide) (by decide)⟩

/-- C3: a page whose extraction yields zero new comments stops pagination
right there, leaving the aggregate exactly as accumulated from the earlier
pages; and an exact repeat of an already-processed page always yields zero
new comments, since the dedup set spans all pages of the invocation. -/
theorem c3_zero_new_comments_stop :
    (∀ (fetch : Nat → FetchOutcome) (page rem : Nat) (st : LoopState)
      (fp : Option Int) (data : List JSONValue),
      fetch page = .ok fp (.doc data) →
      ¬(1 < page ∧ pageMismatch fp page = true) →
      (extractComments data st.seen).newCount = 0 →
      (runPages fetch page (rem + 1) st).1.comments = st.comments ∧
      (runPages fetch page (rem + 1) st).2 = [page]) ∧
    (∀ (data : List JSONValue) (s : List String),
      (extractComments data (extractComments data s).seen).newCount = 0) := by
  constructor
  · intro fetch page rem st fp data h1 h2 h3
    rw [runPages_doc_stop fetch page rem st fp data h1 h2 h3]
    exact ⟨metaUpdate_comments page data st, rfl⟩
  · exact extract_idempotent

/-- C3, witness: an empty document yields zero new comments and stops the
loop on page 1; re-extracting a concrete document against its own resulting
dedup set yields zero new comments. -/
theorem c3_zero_new_comments_stop_witness :
    ((runPages fetchEmptyDoc 1 1 initState).1.comments = initState.comments ∧
     (runPages fetchEmptyDoc 1 1 initState).2 = [1]) ∧
    (extractComments [JSONValue.null]
      (extractComments [JSONValue.null] []).seen).newCount = 0 :=
  ⟨c3_zero_new_comments_stop.1 fetchEmptyDoc 1 0 initState none [] rfl
      (by decide) rfl,
   c3_zero_new_comments_stop.2 [JSONValue.null] []⟩

/-- C4: on a page after the first, a final URL whose `page` parameter is
missing or differs from the requested page stops pagination immediately:
the state (and hence the aggregate) is returned untouched, the redirected
page contributes nothing and no later page is fetched. -/
theorem c4_redirect_mismatch_stops (fetch : Nat → FetchOutcome)
    (page rem : Nat) (st : LoopState) (fp : Option Int) (body : PageBody)
    (hpage : 1 < page) (hfetch : fetch page = .ok fp body)
    (hmis : fp = none ∨ ∃ n : Int, fp = some n ∧ n ≠ (page : Int)) :
    runPages fetch page (rem + 1) st = (st, [page]) := by
  have hm : pageMismatch fp page = true := by
    rcases hmis with rfl | ⟨n, rfl, hne⟩
    · rfl
    · simp only [pageMismatch, bne_iff_ne, ne_eq]
      exact hne
  exact runPages_ok_mismatch fetch page rem st fp body hfetch ⟨hpage, hm⟩

/-- C4, witness: requesting page 5 while the final URL carries page 2. -/
theorem c4_redirect_mismatch_stops_witness :
    runPages fetchRedirTwo 5 1 initState = (initState, [5]) :=
  c4_redirect_mismatch_stops fetchRedirTwo 5 0 initState (some 2) .noMarker
    (by decide) rfl (Or.inr ⟨2, rfl, by decide⟩)

/-- C5, counterexample to the claim as stated: a page-1 fetch failure is not
surfaced to the caller as an error — the scrape returns the very same
normal record (source `"scrape"`, zero comments) that a benign page-1
without a payload marker produces. -/
theorem c5_page1_failure_not_fatal :
    (scrape envAbsentErr reqF99).response =
      (scrape envAbsentNoMarker reqF99).response ∧
    respField (scrape envAbsentErr reqF99) "source" = JSONValue.str "scrape" ∧
    respField (scrape envAbsentErr reqF99) "count" = JSONValue.int 0 :=
  ⟨rfl, rfl, rfl⟩

/-- C5 (amended): a fetch failure on any page, page 1 included, is swallowed
and merely stops pagination with the best-effort aggregate of the pages
already accumulated; in particular a page-1 failure returns a normal empty
record tagged `source = "scrape"` rather than an error. -/
theorem c5_fetch_failure_swallowed :
    (∀ (fetch : Nat → FetchOutcome) (page rem : Nat) (st : LoopState),
      fetch page = .error →
      runPages fetch page (rem + 1) st = (st, [page])) ∧
    (∀ (env : Env) (req : ScrapeRequest),
      ScrapeBypassesCache env req → 1 ≤ req.max_pages →
      env.fetch 1 = .error →
      (scrape env req).response =
        mkResult "" "" [] (deriveFilename (stripQuery req.url)) req.max_pages ∧
      respField (scrape env req) "source" = JSONValue.str "scrape") := by
  constructor
  · exact runPages_error_stop
  · intro env req hb hmax herr
    obtain ⟨k, hk⟩ : ∃ k, req.max_pages.toNat = k + 1 :=
      ⟨req.max_pages.toNat - 1, by omega⟩
    rw [scrape_bypass env req hb, hk,
      runPages_page1_dead env.fetch k initState (Or.inl herr)]
    constructor
    · rfl
    · simp [respField, mkResult, getField, lookupField]

/-- C5, witness: the amended theorem at a failing fetch on page 2 and at a
cacheless request whose page-1 fetch fails. -/
theorem c5_fetch_failure_swallowed_witness :
    (runPages fetchErr 2 1 initState = (initState, [2])) ∧
    ((scrape envAbsentErr reqF99).response =
       mkResult "" "" [] (deriveFilename (stripQuery reqF99.url))
         reqF99.max_pages ∧
     respField (scrape envAbsentErr reqF99) "source" =
       JSONValue.str "scrape") :=
  ⟨c5_fetch_failure_swallowed.1 fetchErr 2 0 initState rfl,
   c5_fetch_failure_swallowed.2 envAbsentErr reqF99 (Or.inr (Or.inl rfl))
     (by decide) rfl⟩

/-- C6, counterexample to the claim as stated: a forced refresh with a
smaller requested depth overwrites a stored `max_pages_request` of 5 with
the strictly smaller value 3. -/
theorem c6_force_refresh_decreases :
    storedMaxPages envCacheFive.cache = some (JSONValue.int 5) ∧
    storedMaxPages (scrape envCacheFive reqF99Force).cacheAfter =
      some (JSONValue.int 3) ∧
    (3 : Int) < 5 :=
  ⟨rfl, rfl, by decide⟩

/-- C6 (amended): without `force_refresh`, on a readable cached object
record with an integer stored depth, the stored `max_pages_request` never
decreases: afterwards it is either unchanged or replaced by the strictly
larger requested depth.  (With `force_refresh` the cache is overwritten
with the requested depth even when that is smaller.) -/
theorem c6_max_pages_monotone (env : Env) (req : ScrapeRequest)
    (fields : List (String × JSONValue)) (m : Int)
    (hf : req.force_refresh = false)
    (hc : env.cache = .valid (.obj fields))
    (hm : lookupField fields "max_pages_request" = some (.int m)) :
    storedMaxPages (scrape env req).cacheAfter = some (.int m) ∨
    (storedMaxPages (scrape env req).cacheAfter =
      some (.int req.max_pages) ∧ m < req.max_pages) := by
  by_cases hlt : m < req.max_pages
  · right
    refine ⟨?_, hlt⟩
    have hb : ScrapeBypassesCache env req :=
      Or.inr (Or.inr (Or.inr ⟨fields, m, hc, hm, hlt⟩))
    rw [scrape_bypass env req hb]
    exact storedMaxPages_mkResult _ _ _ _ _
  · left
    rw [scrape_cached env req fields m hf hc hm (not_lt.mp hlt)]
    simp [storedMaxPages, hc, hm]

/-- C6, witness: the amended theorem on a stored depth of 5 queried with
depth 3 and no forced refresh (cache is left unchanged). -/
theorem c6_max_pages_monotone_witness :
    storedMaxPages (scrape envCacheFive reqF99).cacheAfter =
      some (JSONValue.int 5) ∨
    (storedMaxPages (scrape envCacheFive reqF99).cacheAfter =
      some (JSONValue.int reqF99.max_pages) ∧ (5 : Int) < reqF99.max_pages) :=
  c6_max_pages_monotone envCacheFive reqF99
    [("max_pages_request", .int 5)] 5 rfl rfl rfl

/-- C7: within one scrape invocation, no two entries of the output comment
list share the `(author, date, text)` triple — identical triples collapse to
a single entry, whichever shape or page produced them (the dedup key is
built from exactly these three fields and the dedup set spans all pages). -/
theorem c7_dedup_by_triple (env : Env) (req : ScrapeRequest) :
    (scrape env req).scrapedComments.Pairwise
      (fun a b => (a.author, a.date, a.text) ≠ (b.author, b.date, b.text)) := by
  have hkey : ∀ l : List Comment,
      l.Pairwise (fun a b => commentKey a ≠ commentKey b) →
      l.Pairwise (fun a b =>
        (a.author, a.date, a.text) ≠ (b.author, b.date, b.text)) := by
    intro l hl
    refine hl.imp ?_
    intro a b hne heq
    apply hne
    rw [Prod.ext_iff, Prod.ext_iff] at heq
    obtain ⟨h1, h2, h3⟩ := heq
    simp only [] at h1 h2 h3
    unfold commentKey
    rw [h1, h2, h3]
  rcases scrape_scrapedComments_cases env req with h | h
  · rw [h]; exact List.Pairwise.nil
  · rw [h]
    refine hkey _ ((runPages_good env.fetch _ 1 initState ?_).2)
    exact ⟨fun c hc => absurd hc (List.not_mem_nil c), List.Pairwise.nil⟩

/-- C9, counterexample to the claim as stated: a page-1 document with a deal
title but no comments stops pagination before any comment is extracted, yet
the built record's title is not empty. -/
theorem c9_title_nonempty_counterexample :
    (scrape envMetaOnly reqF99).fetched = [1] ∧
    (scrape envMetaOnly reqF99).scrapedComments = [] ∧
    respField (scrape envMetaOnly reqF99) "deal_title" = JSONValue.str "T" ∧
    JSONValue.str "T" ≠ JSONValue.str "" ∧
    respField (scrape envMetaOnly reqF99) "count" = JSONValue.int 0 :=
  ⟨rfl, rfl, rfl,
   by intro h; injection h with h2; exact absurd h2 (by decide), rfl⟩

/-- C9 (amended): whenever pagination stops before the page-1 payload is
parsed — page-1 fetch failure, absent payload marker, or JSON parse failure
— a non-cached scrape builds the empty Deal record (empty title and
description, count 0, no comments, `max_pages_request` equal to the full
requested depth, `source = "scrape"`), overwrites the thread's cache file
with it, and returns it. -/
theorem c9_pre_payload_stop (env : Env) (req : ScrapeRequest)
    (hb : ScrapeBypassesCache env req) (hmax : 1 ≤ req.max_pages)
    (hdead : page1Dead env.fetch) :
    (scrape env req).response =
      mkResult "" "" [] (deriveFilename (stripQuery req.url)) req.max_pages ∧
    (scrape env req).cacheAfter =
      .valid (mkResult "" "" [] (deriveFilename (stripQuery req.url))
        req.max_pages) ∧
    (scrape env req).scrapedComments = [] := by
  obtain ⟨k, hk⟩ : ∃ k, req.max_pages.toNat = k + 1 :=
    ⟨req.max_pages.toNat - 1, by omega⟩
  rw [scrape_bypass env req hb, hk,
    runPages_page1_dead env.fetch k initState hdead]
  exact ⟨rfl, rfl, rfl⟩

/-- C9, witness: the amended theorem at a cacheless request whose page 1
has no payload marker. -/
theorem c9_pre_payload_stop_witness :
    (scrape envAbsentNoMarker reqF99).response =
      mkResult "" "" [] (deriveFilename (stripQuery reqF99.url))
        reqF99.max_pages ∧
    (scrape envAbsentNoMarker reqF99).cacheAfter =
      .valid (mkResult "" "" [] (deriveFilename (stripQuery reqF99.url))
        reqF99.max_pages) ∧
    (scrape envAbsentNoMarker reqF99).scrapedComments = [] :=
  c9_pre_payload_stop envAbsentNoMarker reqF99 (Or.inr (Or.inl rfl))
    (by decide) (Or.inr (Or.inl ⟨none, rfl⟩))

theorem lastNonEmptySeg_concat (parts : List String) (x : String) :
    lastNonEmptySeg (parts ++ [x]) =
      if x = "" then lastNonEmptySeg parts else x := by
  unfold lastNonEmptySeg
  rw [List.foldl_append]
  rfl

theorem codeSlug_eq_lastNonEmptySeg (parts : List String)
    (h : parts.getLastD "" ≠ "" ∨ parts.getD (parts.length - 2) "" ≠ "") :
    (if parts.getLastD "" ≠ "" then parts.getLastD ""
     else parts.getD (parts.length - 2) "") = lastNonEmptySeg parts := by
  rcases List.eq_nil_or_concat' parts with rfl | ⟨init, x, rfl⟩
  · simp at h
  · rw [List.getLastD_concat]
    by_cases hx : x = ""
    · subst hx
      rw [if_neg (by simp), lastNonEmptySeg_concat, if_pos rfl]
      rcases List.eq_nil_or_concat' init with rfl | ⟨init2, y, rfl⟩
      · simp at h
      · have hidx : ((init2 ++ [y]) ++ [""]).length - 2 = init2.length := by
          simp
        have hgd : ((init2 ++ [y]) ++ [""]).getD init2.length "" = y := by
          rw [List.append_assoc, List.getD_eq_getElem?_getD,
            List.getElem?_append_right (le_refl init2.length)]
          simp
        have hy : y ≠ "" := by
          rcases h with h | h
          · rw [List.getLastD_concat] at h
            exact absurd rfl h
          · rw [hidx, hgd] at h
            exact h
        rw [hidx, hgd, lastNonEmptySeg_concat, if_neg hy]
    · rw [if_pos hx, lastNonEmptySeg_concat, if_neg hx]

/-- C8, counterexample to the claim as stated: on a URL whose split ends in
two empty parts the code takes the (empty) second-to-last part rather than
the last non-empty path segment, so the filename differs from the spec's
formula. -/
theorem c8_double_slash_counterexample :
    deriveFilename "https://example.com/foo//" = "scrape_.json" ∧
    specFilename "https://example.com/foo//" = "scrape_foo.json" ∧
    ("scrape_.json" : String) ≠ "scrape_foo.json" :=
  ⟨rfl, rfl, by decide⟩

/-- C8 (amended): filename derivation is deterministic and matches the
spec's formula — `deal_<digits>.json` on a `/f/<digits>` URL, else
`scrape_` plus the last non-empty `/`-separated part sanitized to
alphanumerics and dashes and truncated to 50 characters — whenever the last
part is non-empty or the second-to-last part is the last non-empty one; the
code only ever inspects the final two parts, so with two trailing
slashes it uses the empty second-to-last part instead. -/
theorem c8_filename_spec (u : String)
    (h : (splitOnChar '/' u.toList).getLastD "" ≠ "" ∨
      (splitOnChar '/' u.toList).getD
        ((splitOnChar '/' u.toList).length - 2) "" ≠ "") :
    deriveFilename u = specFilename u := by
  unfold deriveFilename specFilename
  cases hd : findDealId u.toList with
  | some ds => rfl
  | none =>
    simp only []
    rw [codeSlug_eq_lastNonEmptySeg (splitOnChar '/' u.toList) h]

/-- C8, witness: the amended theorem on a URL with a normal trailing
segment. -/
theorem c8_filename_spec_witness :
    deriveFilename "https://example.com/forum/some-thread" =
      specFilename "https://example.com/forum/some-thread" :=
  c8_filename_spec "https://example.com/forum/some-thread" (Or.inl (by decide))

end Slickdeals
